import Mathlib

/-!
Shallow embedding of the task-management web application
(`src/app/api/tasks/route.ts`, `src/app/api/tasks/[id]/route.ts`,
`src/app/page.tsx`) and proofs about its CRUD endpoints and its
client-side filter/search/sort pipeline.

JavaScript values that may flow through a JSON request body are modelled
by `JsValue`; the database behind the ORM is modelled as a `List Task`,
with `findFirst`, `findMany`/`orderBy`, `create`, `update` and `delete`
rendered as the corresponding pure list operations.  Timestamps are
epoch milliseconds (`Int`).
-/

namespace App

/-- Task status enum, from the Prisma schema (`TODO | IN_PROGRESS | DONE`). -/
inductive Status where
  | TODO
  | IN_PROGRESS
  | DONE
deriving DecidableEq, Repr

/-- Task priority enum, from the Prisma schema (`LOW | MEDIUM | HIGH`). -/
inductive Priority where
  | LOW
  | MEDIUM
  | HIGH
deriving DecidableEq, Repr

/-- A JavaScript value as it can appear in a parsed JSON body field
(`undefined` models an absent key). -/
inductive JsValue where
  | undef
  | null
  | bool (b : Bool)
  | num (n : Int)
  | str (s : String)
deriving DecidableEq, Repr

/-- JavaScript truthiness of a `JsValue`. -/
def JsValue.truthy : JsValue → Bool
  | .undef => false
  | .null => false
  | .bool b => b
  | .num n => !(n == 0)
  | .str s => !(s == "")

/-- The persisted task record (Prisma `Task` model).  `dueDate` and
`createdAt` are epoch milliseconds. -/
structure Task where
  id : String
  userId : String
  title : String
  description : Option String
  status : Status
  priority : Priority
  dueDate : Option Int
  createdAt : Int
deriving DecidableEq, Repr

/-- A request body for the create/update endpoints: the five recognized
fields plus a `userId` field, which models a client attempting to send an
owner value (the handlers never read it — unrecognized fields are ignored). -/
structure Body where
  title : JsValue := .undef
  description : JsValue := .undef
  priority : JsValue := .undef
  status : JsValue := .undef
  dueDate : JsValue := .undef
  userId : JsValue := .undef
deriving DecidableEq, Repr

/-- Error response body plus HTTP status (`{ error, details? }`). -/
structure ErrRes where
  status : Nat
  error : String
  details : Option String
deriving DecidableEq, Repr

/-- `Object.values(Status)` in Prisma-schema order. -/
def statusValues : List String := ["TODO", "IN_PROGRESS", "DONE"]

/-- `Object.values(Priority)` in Prisma-schema order. -/
def priorityValues : List String := ["LOW", "MEDIUM", "HIGH"]

/-- `isValidStatus` from the route files, applied to a JSON body field:
`if (!value) return false; return Object.values(Status).includes(value)`. -/
def isValidStatusJs (v : JsValue) : Bool :=
  match v with
  | .str s => !(s == "") && statusValues.contains s
  | _ => false

/-- `isValidPriority` from the route files, applied to a JSON body field. -/
def isValidPriorityJs (v : JsValue) : Bool :=
  match v with
  | .str s => !(s == "") && priorityValues.contains s
  | _ => false

/-- `isValidStatus` applied to a (non-null) query-string value. -/
def isValidStatusStr (s : String) : Bool :=
  !(s == "") && statusValues.contains s

/-- Decode a validated status string into the enum. -/
def statusOfString (s : String) : Status :=
  match s with
  | "IN_PROGRESS" => .IN_PROGRESS
  | "DONE" => .DONE
  | _ => .TODO

/-- Decode a validated priority string into the enum. -/
def priorityOfString (s : String) : Priority :=
  match s with
  | "MEDIUM" => .MEDIUM
  | "HIGH" => .HIGH
  | _ => .LOW

/-- The string form of a status value (as serialized to/compared in JS). -/
def statusToString : Status → String
  | .TODO => "TODO"
  | .IN_PROGRESS => "IN_PROGRESS"
  | .DONE => "DONE"

/-- Decode a body field that passed the priority validation. -/
def priorityOfJs : JsValue → Priority
  | .str s => priorityOfString s
  | _ => .LOW

/-- Decode a body field that passed the status validation. -/
def statusOfJs : JsValue → Status
  | .str s => statusOfString s
  | _ => .TODO

/-! ### JavaScript string primitives

`trim`, `toLowerCase`, `includes` and digit parsing belong to the
JavaScript runtime; they are modelled here as list-based functions on the
characters of a `String` (ASCII case mapping and ASCII whitespace, which
covers the application's data). -/

/-- JS `String.prototype.trim`: strip leading and trailing whitespace. -/
def jsTrim (s : String) : String :=
  ⟨((s.data.dropWhile Char.isWhitespace).reverse.dropWhile Char.isWhitespace).reverse⟩

/-- JS `String.prototype.toLowerCase` (ASCII case mapping). -/
def jsToLower (s : String) : String := ⟨s.data.map Char.toLower⟩

/-- Split a character list at every occurrence of the separator `c`. -/
def splitOnChar (c : Char) : List Char → List (List Char)
  | [] => [[]]
  | x :: xs =>
    if x = c then [] :: splitOnChar c xs
    else
      match splitOnChar c xs with
      | [] => [[x]]
      | ys :: rest => (x :: ys) :: rest

/-- The numeric value of a decimal digit character. -/
def digitVal? (ch : Char) : Option Nat :=
  if '0' ≤ ch ∧ ch ≤ '9' then some (ch.toNat - 48) else none

/-- Accumulating helper for `digitsToNat?`. -/
def digitsToNatAux : List Char → Nat → Option Nat
  | [], acc => some acc
  | ch :: rest, acc =>
    match digitVal? ch with
    | some d => digitsToNatAux rest (acc * 10 + d)
    | none => none

/-- Parse a non-empty all-digit character list as a natural number. -/
def digitsToNat? (l : List Char) : Option Nat :=
  match l with
  | [] => none
  | _ => digitsToNatAux l 0

/-! ### Dates

`Date.parse` / `new Date(string)` belong to the JavaScript runtime, not
to this repository.  They are modelled here for date-only ISO strings
`YYYY-MM-DD` (the shape the application round-trips): per ECMA-262,
date-only forms are interpreted as *UTC* midnight, independently of the
host timezone, which is why `jsDateParse` ignores its timezone argument
for them.  Other input shapes (datetimes, pre-1970 years) are not
modelled and conservatively yield `none` (`NaN`). -/

/-- Gregorian leap-year test. -/
def isLeap (y : Nat) : Bool := y % 4 == 0 && (y % 100 != 0 || y % 400 == 0)

/-- Number of days in month `m` (1-based) of year `y`. -/
def daysInMonth (y m : Nat) : Nat :=
  match m with
  | 2 => if isLeap y then 29 else 28
  | 4 => 30
  | 6 => 30
  | 9 => 30
  | 11 => 30
  | _ => 31

/-- Days from 1970-01-01 to `y`-01-01, for `y ≥ 1970`. -/
def daysBeforeYear (y : Nat) : Nat :=
  (List.range (y - 1970)).foldl
    (fun acc i => acc + (if isLeap (1970 + i) then 366 else 365)) 0

/-- Days from `y`-01-01 to `y`-`m`-01. -/
def daysBeforeMonth (y m : Nat) : Nat :=
  (List.range (m - 1)).foldl (fun acc i => acc + daysInMonth y (i + 1)) 0

/-- Days since the Unix epoch of the civil date `y`-`m`-`d` (`y ≥ 1970`). -/
def daysSinceEpoch (y m d : Nat) : Nat :=
  daysBeforeYear y + daysBeforeMonth y m + (d - 1)

/-- Milliseconds per day. -/
def msPerDay : Nat := 86400000

/-- Parse a date-only ISO string `YYYY-MM-DD` into days since the epoch;
`none` for anything malformed or out of the modelled range. -/
def parseDateOnly (s : String) : Option Nat :=
  match splitOnChar '-' s.data with
  | [ys, ms, ds] =>
    if ys.length == 4 && ms.length == 2 && ds.length == 2 then
      match digitsToNat? ys, digitsToNat? ms, digitsToNat? ds with
      | some y, some mo, some d =>
        if 1970 ≤ y ∧ 1 ≤ mo ∧ mo ≤ 12 ∧ 1 ≤ d ∧ d ≤ daysInMonth y mo then
          some (daysSinceEpoch y mo d)
        else none
      | _, _, _ => none
    else none
  | _ => none

/-- Modelled `Date.parse` on a body field: epoch milliseconds, or `none`
for `NaN`.  Date-only strings are UTC per ECMA-262, so the host timezone
offset `_tz` does not enter the result. -/
def jsDateParse (_tz : Int) (v : JsValue) : Option Int :=
  match v with
  | .str s => (parseDateOnly s).map (fun days => (days : Int) * msPerDay)
  | _ => none

/-- Inverse direction, year part: given fuel, a starting year and days
remaining, find the calendar year and the day-of-year. -/
def yearOfDays : Nat → Nat → Nat → Nat × Nat
  | 0, y, days => (y, days)
  | fuel + 1, y, days =>
    let len := if isLeap y then 366 else 365
    if days < len then (y, days) else yearOfDays fuel (y + 1) (days - len)

/-- Inverse direction, month part: find the month and day-of-month. -/
def monthOfDays : Nat → Nat → Nat → Nat → Nat × Nat
  | 0, _, m, days => (m, days)
  | fuel + 1, y, m, days =>
    let len := daysInMonth y m
    if days < len then (m, days) else monthOfDays fuel y (m + 1) (days - len)

/-- The UTC civil date `(y, m, d)` of a day count since the epoch (this is
what `toISOString`'s date part shows for the instant). -/
def civilOfDays (days : Nat) : Nat × Nat × Nat :=
  let yd := yearOfDays 10000 1970 days
  let md := monthOfDays 12 yd.1 1 yd.2
  (yd.1, md.1, md.2 + 1)

/-! ### String search -/

/-- JavaScript `String.prototype.includes`: substring containment. -/
def jsIncludes (hay sub : String) : Bool := decide (sub.data <:+: hay.data)

/-- ORM `contains` with `mode: "insensitive"`: case-insensitive substring. -/
def insContains (hay needle : String) : Bool :=
  jsIncludes (jsToLower hay) (jsToLower needle)

/-! ### Shared error responses (verbatim from the route files) -/

def errUnauthorized : ErrRes :=
  ⟨401, "Unauthorized", some "User ID not found in headers"⟩

def errInvalidId : ErrRes := ⟨400, "Validation error", some "Invalid task ID"⟩

def errNotFound : ErrRes :=
  ⟨404, "Not found", some "Task not found or access denied"⟩

def errTitlePost : ErrRes :=
  ⟨400, "Validation error", some "Title is required and must be a non-empty string"⟩

def errTitlePut : ErrRes :=
  ⟨400, "Validation error", some "Title must be a non-empty string"⟩

def errDesc : ErrRes := ⟨400, "Validation error", some "Description must be a string"⟩

def errPriorityEnum : ErrRes :=
  ⟨400, "Validation error", some "Priority must be one of: LOW, MEDIUM, HIGH"⟩

def errStatusEnum : ErrRes :=
  ⟨400, "Validation error", some "Status must be one of: TODO, IN_PROGRESS, DONE"⟩

def errDueDate : ErrRes :=
  ⟨400, "Validation error", some "Due date must be a valid ISO date string"⟩

def errInvalidStatusParam : ErrRes :=
  ⟨400, "Invalid status parameter",
    some "Status must be one of: TODO, IN_PROGRESS, DONE, or ALL"⟩

def errInternal (d : String) : ErrRes := ⟨500, "Internal server error", some d⟩

/-! ### `/api/tasks/[id]` handlers -/

/-- `prisma.task.findFirst({ where: { id, userId } })`: the single combined
lookup on id AND owner used by GET/PUT/DELETE. -/
def findFirstTask (db : List Task) (id uid : String) : Option Task :=
  db.find? (fun t => t.id == id && t.userId == uid)

/-- `GET /api/tasks/[id]` (`src/app/api/tasks/[id]/route.ts`). -/
def getTask (db : List Task) (userId : Option String) (id : String) :
    Except ErrRes Task :=
  match userId with
  | none => .error errUnauthorized
  | some uid =>
    if uid = "" then .error errUnauthorized
    else if id = "" then .error errInvalidId
    else
      match findFirstTask db id uid with
      | none => .error errNotFound
      | some t => .ok t

/-- The `updateData` object assembled by the PUT handler: `none` = key
absent (field untouched by the ORM update). -/
structure UpdateData where
  title : Option String := none
  description : Option (Option String) := none
  priority : Option Priority := none
  status : Option Status := none
  dueDate : Option (Option Int) := none
deriving DecidableEq, Repr

/-- `prisma.task.update({ where: { id }, data })`: only keys present in
`data` change; `id`, `userId`, `createdAt` are never in `data`. -/
def applyUpdate (t : Task) (u : UpdateData) : Task :=
  { t with
    title := u.title.getD t.title,
    description := u.description.getD t.description,
    priority := u.priority.getD t.priority,
    status := u.status.getD t.status,
    dueDate := u.dueDate.getD t.dueDate }

/-- PUT title validation: absent is fine, otherwise must be a string with
non-empty trim. -/
def putTitleOk (v : JsValue) : Bool :=
  match v with
  | .undef => true
  | .str s => !(jsTrim s == "")
  | _ => false

/-- PUT description validation: absent or `null` is fine, otherwise must
be a string. -/
def putDescOk (v : JsValue) : Bool :=
  match v with
  | .undef => true
  | .null => true
  | .str _ => true
  | _ => false

/-- PUT priority validation: `body.priority !== undefined && !isValidPriority(...)`
fails. -/
def putPriorityOk (v : JsValue) : Bool := v == .undef || isValidPriorityJs v

/-- PUT status validation. -/
def putStatusOk (v : JsValue) : Bool := v == .undef || isValidStatusJs v

/-- PUT dueDate validation: absent or `null` is fine, otherwise
`Date.parse` must not be `NaN`. -/
def putDueDateOk (tz : Int) (v : JsValue) : Bool :=
  match v with
  | .undef => true
  | .null => true
  | w => (jsDateParse tz w).isSome

/-- The `updateData` the PUT handler builds from a validated body. -/
def putUpdateData (tz : Int) (body : Body) : UpdateData :=
  { title :=
      match body.title with
      | .str s => some (jsTrim s)
      | _ => none,
    description :=
      match body.description with
      | .undef => none
      | .str s => some (if jsTrim s == "" then none else some (jsTrim s))
      | _ => some none,
    priority :=
      match body.priority with
      | .undef => none
      | v => some (priorityOfJs v),
    status :=
      match body.status with
      | .undef => none
      | v => some (statusOfJs v),
    dueDate :=
      match body.dueDate with
      | .undef => none
      | v => some (if v.truthy then some ((jsDateParse tz v).getD 0) else none) }

/-- `PUT /api/tasks/[id]` (`src/app/api/tasks/[id]/route.ts`).  Returns
the response together with the resulting database state. -/
def putTask (db : List Task) (userId : Option String) (id : String)
    (tz : Int) (body : Body) : Except ErrRes Task × List Task :=
  match userId with
  | none => (.error errUnauthorized, db)
  | some uid =>
    if uid = "" then (.error errUnauthorized, db)
    else if id = "" then (.error errInvalidId, db)
    else
      match findFirstTask db id uid with
      | none => (.error errNotFound, db)
      | some existingTask =>
        if !putTitleOk body.title then (.error errTitlePut, db)
        else if !putDescOk body.description then (.error errDesc, db)
        else if !putPriorityOk body.priority then (.error errPriorityEnum, db)
        else if !putStatusOk body.status then (.error errStatusEnum, db)
        else if !putDueDateOk tz body.dueDate then (.error errDueDate, db)
        else
          let u := putUpdateData tz body
          (.ok (applyUpdate existingTask u),
            db.map (fun t => if t.id == id then applyUpdate t u else t))

/-- `DELETE /api/tasks/[id]` (`src/app/api/tasks/[id]/route.ts`). -/
def deleteTask (db : List Task) (userId : Option String) (id : String) :
    Except ErrRes String × List Task :=
  match userId with
  | none => (.error errUnauthorized, db)
  | some uid =>
    if uid = "" then (.error errUnauthorized, db)
    else if id = "" then (.error errInvalidId, db)
    else
      match findFirstTask db id uid with
      | none => (.error errNotFound, db)
      | some _ => (.ok "Task deleted successfully", db.filter (fun t => !(t.id == id)))

/-! ### `/api/tasks` handlers -/

/-- POST title validation:
`!body.title || typeof body.title !== "string" || !body.title.trim()` fails. -/
def postTitleOk (v : JsValue) : Bool :=
  match v with
  | .str s => !(s == "") && !(jsTrim s == "")
  | _ => false

/-- POST description validation: `body.description && typeof body.description !== "string"`
fails (truthiness, unlike PUT). -/
def postDescOk (v : JsValue) : Bool :=
  !v.truthy || (match v with | .str _ => true | _ => false)

/-- POST priority validation: `body.priority && !isValidPriority(body.priority)` fails. -/
def postPriorityOk (v : JsValue) : Bool := !v.truthy || isValidPriorityJs v

/-- POST status validation. -/
def postStatusOk (v : JsValue) : Bool := !v.truthy || isValidStatusJs v

/-- POST dueDate validation: `body.dueDate && isNaN(Date.parse(body.dueDate))` fails. -/
def postDueDateOk (tz : Int) (v : JsValue) : Bool :=
  !v.truthy || (jsDateParse tz v).isSome

/-- `body.description?.trim() || null`: `none` models the `TypeError`
thrown when `.trim` is called on a falsy non-string that slipped past the
truthiness validation (caught as a 500 by the handler's `catch`). -/
def postDescription : JsValue → Option (Option String)
  | .str s => some (if jsTrim s == "" then none else some (jsTrim s))
  | .undef => some none
  | .null => some none
  | _ => none

/-- `POST /api/tasks` (`src/app/api/tasks/route.ts`).  `newId` and `now`
stand for the server-assigned id and creation timestamp. -/
def createTask (db : List Task) (userId : Option String) (tz : Int)
    (body : Body) (newId : String) (now : Int) : Except ErrRes Task × List Task :=
  match userId with
  | none => (.error errUnauthorized, db)
  | some uid =>
    if uid = "" then (.error errUnauthorized, db)
    else if !postTitleOk body.title then (.error errTitlePost, db)
    else if !postDescOk body.description then (.error errDesc, db)
    else if !postPriorityOk body.priority then (.error errPriorityEnum, db)
    else if !postStatusOk body.status then (.error errStatusEnum, db)
    else if !postDueDateOk tz body.dueDate then (.error errDueDate, db)
    else
      match postDescription body.description with
      | none => (.error (errInternal "body.description?.trim is not a function"), db)
      | some desc =>
        let task : Task :=
          { id := newId,
            userId := uid,
            title := (match body.title with | .str s => jsTrim s | _ => ""),
            description := desc,
            priority := if body.priority.truthy then priorityOfJs body.priority else .LOW,
            status := if body.status.truthy then statusOfJs body.status else .TODO,
            dueDate :=
              if body.dueDate.truthy then some ((jsDateParse tz body.dueDate).getD 0)
              else none,
            createdAt := now }
        (.ok task, db ++ [task])

/-- The `whereClause` the list handler passes to `findMany`. -/
def listWhere (uid : String) (statusFilter : Option Status)
    (searchTerm : Option String) (t : Task) : Bool :=
  t.userId == uid &&
    (match statusFilter with | none => true | some s => t.status == s) &&
    (match searchTerm with
     | none => true
     | some q =>
       insContains t.title q ||
         (match t.description with | some d => insContains d q | none => false))

/-- `GET /api/tasks` (`src/app/api/tasks/route.ts`): status/search query
parameters (`none` = key absent), result ordered by `createdAt` descending
(`orderBy: { createdAt: "desc" }`, rendered as a stable sort). -/
def listTasks (db : List Task) (userId : Option String)
    (statusParam : Option String) (search : Option String) :
    Except ErrRes (List Task) :=
  match userId with
  | none => .error errUnauthorized
  | some uid =>
    if uid = "" then .error errUnauthorized
    else
    let sp := statusParam.getD ""
    if sp != "" && sp != "ALL" && !isValidStatusStr sp then
      .error errInvalidStatusParam
    else
      let statusFilter := if sp != "" && sp != "ALL" then some (statusOfString sp) else none
      let searchTerm :=
        match search with
        | some q => if q != "" && jsTrim q != "" then some (jsTrim q) else none
        | none => none
      .ok ((db.filter (listWhere uid statusFilter searchTerm)).insertionSort
        (fun a b => b.createdAt ≤ a.createdAt))

/-! ### Client view pipeline (`src/app/page.tsx`) -/

/-- The filter predicate inside `filteredAndSortedTasks`: status filter,
then (debounced) search with lowercased query against lowercased
title/description. -/
def taskKeep (filterStatus q : String) (t : Task) : Bool :=
  if filterStatus != "ALL" && statusToString t.status != filterStatus then false
  else if q != "" then
    let query := jsToLower q
    jsIncludes (jsToLower t.title) query ||
      (match t.description with | some d => jsIncludes (jsToLower d) query | none => false)
  else true

/-- The `priorityOrder` mapping `{ HIGH: 3, MEDIUM: 2, LOW: 1 }`. -/
def priorityOrder : Priority → Int
  | .HIGH => 3
  | .MEDIUM => 2
  | .LOW => 1

/-- The sort comparator passed to `Array.prototype.sort`. -/
def sortCmp (sortBy : String) (a b : Task) : Int :=
  match sortBy with
  | "date-desc" => b.createdAt - a.createdAt
  | "date-asc" => a.createdAt - b.createdAt
  | "priority-desc" => priorityOrder b.priority - priorityOrder a.priority
  | "priority-asc" => priorityOrder a.priority - priorityOrder b.priority
  | _ => 0

/-- `filteredAndSortedTasks` from `page.tsx`: filter then a stable sort
(`Array.prototype.sort` is stable per ES2019; stable sorting under a total
preorder has a unique result, rendered here as insertion sort) keeping `a`
before `b` when the comparator returns `≤ 0`. -/
def filteredAndSortedTasks (tasks : List Task) (filterStatus q sortBy : String) :
    List Task :=
  (tasks.filter (taskKeep filterStatus q)).insertionSort
    (fun a b => sortCmp sortBy a b ≤ 0)

/-- Decidable equality for `Except`, so concrete handler outputs can be
checked by `decide`. -/
instance {ε α : Type} [DecidableEq ε] [DecidableEq α] : DecidableEq (Except ε α) :=
  fun x y =>
    match x, y with
    | .error e, .error f =>
      if h : e = f then isTrue (by rw [h])
      else isFalse (fun hc => h (Except.error.inj hc))
    | .ok a, .ok b =>
      if h : a = b then isTrue (by rw [h])
      else isFalse (fun hc => h (Except.ok.inj hc))
    | .error _, .ok _ => isFalse (fun hc => Except.noConfusion hc)
    | .ok _, .error _ => isFalse (fun hc => Except.noConfusion hc)

/-! ### Sample data for concrete instantiations -/

/-- A sample persisted task (owner `"u"`). -/
def sampleTask : Task :=
  ⟨"a", "u", "Complete project", none, .IN_PROGRESS, .LOW, none, 10⟩

/-- A second sample task of the same owner. -/
def sampleTask2 : Task :=
  ⟨"b", "u", "Write tests", some "unit tests", .TODO, .HIGH, none, 20⟩

/-! ### Helper lemmas -/

/-- If no task matches both the id and the owner, the combined lookup is empty. -/
lemma findFirstTask_eq_none {db : List Task} {id uid : String}
    (h : ∀ t ∈ db, ¬(t.id = id ∧ t.userId = uid)) :
    findFirstTask db id uid = none := by
  simp only [findFirstTask, List.find?_eq_none, Bool.and_eq_true, beq_iff_eq]
  intro t ht hc
  exact h t ht hc

/-! ### Theorems -/

/-- C10: every validation check in the PUT handler runs before the single
storage update, so any PUT request that ends in an error response leaves
the database completely unchanged. -/
theorem putTask_error_leaves_db_unchanged
    (db : List Task) (userId : Option String) (id : String) (tz : Int)
    (body : Body) (e : ErrRes) (db' : List Task)
    (h : putTask db userId id tz body = (.error e, db')) : db' = db := by
  unfold putTask at h
  repeat' split at h
  all_goals simp_all

/-- C10 witness: a PUT with an invalid title fails with a 400 and leaves
the concrete one-task database untouched. -/
theorem putTask_error_leaves_db_unchanged_witness :
    (putTask [sampleTask] (some "u") "a" 0 {title := .str "  "}).2 = [sampleTask] :=
  putTask_error_leaves_db_unchanged [sampleTask] (some "u") "a" 0
    {title := .str "  "} errTitlePut _ (by decide)

/-- C1: Get/Update/Delete by id resolve the task by a single combined
lookup on id AND owner; when no task matches (id absent or owned by a
different user) the operation fails with the 404 not-found-or-forbidden
error, the database untouched; deleting succeeds at most once — a second
delete of the same id gets the same 404. -/
theorem byId_lookup_404 :
    (∀ (db : List Task) (uid id : String) (tz : Int) (body : Body),
        uid ≠ "" → id ≠ "" →
        (∀ t ∈ db, ¬(t.id = id ∧ t.userId = uid)) →
        getTask db (some uid) id = .error errNotFound ∧
        putTask db (some uid) id tz body = (.error errNotFound, db) ∧
        deleteTask db (some uid) id = (.error errNotFound, db)) ∧
    (∀ (db db' : List Task) (uid id m : String),
        deleteTask db (some uid) id = (.ok m, db') →
        (deleteTask db' (some uid) id).1 = .error errNotFound) ∧
    errNotFound.status = 404 := by
  refine ⟨?_, ?_, rfl⟩
  · intro db uid id tz body huid hid hnone
    have hf := findFirstTask_eq_none hnone
    refine ⟨?_, ?_, ?_⟩ <;> simp [getTask, putTask, deleteTask, hf, huid, hid]
  · intro db db' uid id m h
    unfold deleteTask at h
    by_cases huid : uid = ""
    · simp [huid] at h
    · by_cases hid : id = ""
      · simp [huid, hid] at h
      · simp only [huid, hid, if_neg, if_false, ite_false] at h
        rcases hff : findFirstTask db id uid with _ | t
        · rw [hff] at h; simp at h
        · rw [hff] at h
          simp only [Prod.mk.injEq] at h
          have hdb : db' = db.filter (fun t => !(t.id == id)) := h.2.symm
          have hf2 : findFirstTask db' id uid = none := by
            apply findFirstTask_eq_none
            intro t ht hc
            rw [hdb] at ht
            have := (List.mem_filter.mp ht).2
            simp only [Bool.not_eq_true', beq_eq_false_iff_ne] at this
            exact this hc.1
          simp [deleteTask, huid, hid, hf2]

/-- C1 witness: looking up another user's task yields the 404 response,
and deleting an existing task twice yields 404 the second time. -/
theorem byId_lookup_404_witness :
    getTask [sampleTask] (some "v") "a" = .error errNotFound ∧
    (deleteTask [] (some "u") "a").1 = .error errNotFound := by
  constructor
  · exact (byId_lookup_404.1 [sampleTask] "v" "a" 0 {} (by decide) (by decide)
      (by decide)).1
  · exact byId_lookup_404.2.1 [sampleTask] [] "u" "a" "Task deleted successfully" (by decide)

/-- C2: every task in a successful List response is owned by the session
user, and the response is ordered by creation timestamp, newest first. -/
theorem listTasks_owner_and_newest_first :
    ∀ (db : List Task) (uid : String) (sp search : Option String) (l : List Task),
      listTasks db (some uid) sp search = .ok l →
      (∀ t ∈ l, t.userId = uid) ∧
      l.Pairwise (fun a b => b.createdAt ≤ a.createdAt) := by
  intro db uid sp search l h
  by_cases huid : uid = ""
  · simp [listTasks, huid] at h
  · simp only [listTasks] at h
    rw [if_neg huid] at h
    split at h
    · exact absurd h (by simp)
    · simp only [Except.ok.injEq] at h
      subst h
      constructor
      · intro t ht
        rw [List.mem_insertionSort, List.mem_filter] at ht
        have h2 := ht.2
        simp only [listWhere, Bool.and_eq_true, beq_iff_eq] at h2
        exact h2.1.1
      · haveI : IsTotal Task (fun a b => b.createdAt ≤ a.createdAt) :=
          ⟨fun a b => le_total _ _⟩
        haveI : IsTrans Task (fun a b => b.createdAt ≤ a.createdAt) :=
          ⟨fun _ _ _ h1 h2 => le_trans h2 h1⟩
        exact List.sorted_insertionSort _ _

/-- C2 witness: a concrete two-task List response is owner-only and
newest-first. -/
theorem listTasks_owner_and_newest_first_witness :
    sampleTask2.userId = "u" ∧
    ([sampleTask2, sampleTask]).Pairwise (fun a b => b.createdAt ≤ a.createdAt) := by
  have h := listTasks_owner_and_newest_first [sampleTask, sampleTask2] "u" none none
    [sampleTask2, sampleTask] (by decide)
  exact ⟨h.1 sampleTask2 (by decide), h.2⟩

/-- C5: Create rejects a missing/empty/whitespace-only title with the 400
validation error, and a create with only `title="Buy milk"` succeeds,
appending a task with `priority=LOW` and `status=TODO`. -/
theorem createTask_title_rules :
    ∀ (db : List Task) (uid newId : String) (tz now : Int), uid ≠ "" →
      createTask db (some uid) tz {} newId now = (.error errTitlePost, db) ∧
      createTask db (some uid) tz {title := .str ""} newId now = (.error errTitlePost, db) ∧
      createTask db (some uid) tz {title := .str "   "} newId now = (.error errTitlePost, db) ∧
      errTitlePost.status = 400 ∧
      createTask db (some uid) tz {title := .str "Buy milk"} newId now =
        (.ok ⟨newId, uid, "Buy milk", none, .TODO, .LOW, none, now⟩,
         db ++ [⟨newId, uid, "Buy milk", none, .TODO, .LOW, none, now⟩]) := by
  intro db uid newId tz now huid
  refine ⟨?_, ?_, ?_, rfl, ?_⟩
  · simp [createTask, huid, postTitleOk]
  · simp [createTask, huid, postTitleOk]
  · have h3 : postTitleOk (.str "   ") = false := by decide
    simp [createTask, huid, h3]
  · have h1 : postTitleOk (.str "Buy milk") = true := by decide
    have h2 : jsTrim "Buy milk" = "Buy milk" := by decide
    simp [createTask, huid, h1, postDescOk, postPriorityOk, postStatusOk,
      postDueDateOk, JsValue.truthy, postDescription, h2]

/-- C5 witness: the validation failure and the successful default-filled
create at concrete inputs. -/
theorem createTask_title_rules_witness :
    createTask [] (some "u") 0 {title := .str "   "} "t1" 5 = (.error errTitlePost, []) ∧
    createTask [] (some "u") 0 {title := .str "Buy milk"} "t1" 5 =
      (.ok ⟨"t1", "u", "Buy milk", none, .TODO, .LOW, none, 5⟩,
       [⟨"t1", "u", "Buy milk", none, .TODO, .LOW, none, 5⟩]) := by
  have h := createTask_title_rules [] "u" "t1" 0 5 (by decide)
  exact ⟨h.2.2.1, by simpa using h.2.2.2.2⟩

/-- C3: a successful Update starts from a task matching id AND owner;
every supplied field was validated and is applied (title trimmed,
enum fields decoded, description normalized, dueDate parsed), every
omitted field is unchanged, and the owner (with id and creation time) is
never modified — even when the payload carries a `userId` value. -/
theorem putTask_field_frame :
    ∀ (db : List Task) (uid id : String) (tz : Int) (body : Body)
      (t' : Task) (db' : List Task),
      putTask db (some uid) id tz body = (.ok t', db') →
      ∃ t0, t0 ∈ db ∧ t0.id = id ∧ t0.userId = uid ∧
        t'.id = t0.id ∧ t'.userId = t0.userId ∧ t'.createdAt = t0.createdAt ∧
        (body.title = .undef → t'.title = t0.title) ∧
        (∀ s, body.title = .str s → jsTrim s ≠ "" ∧ t'.title = jsTrim s) ∧
        (body.description = .undef → t'.description = t0.description) ∧
        (∀ s, body.description = .str s →
          t'.description = if jsTrim s = "" then none else some (jsTrim s)) ∧
        (body.description = .null → t'.description = none) ∧
        (body.priority = .undef → t'.priority = t0.priority) ∧
        (∀ s, body.priority = .str s →
          priorityValues.contains s = true ∧ t'.priority = priorityOfString s) ∧
        (body.status = .undef → t'.status = t0.status) ∧
        (∀ s, body.status = .str s →
          statusValues.contains s = true ∧ t'.status = statusOfString s) ∧
        (body.dueDate = .undef → t'.dueDate = t0.dueDate) ∧
        (∀ s, body.dueDate = .str s →
          ∃ ms, jsDateParse tz (.str s) = some ms ∧ t'.dueDate = some ms) := by
  intro db uid id tz body t' db' h
  by_cases huid : uid = ""
  · simp [putTask, huid] at h
  · simp only [putTask] at h
    rw [if_neg huid] at h
    by_cases hid : id = ""
    · rw [if_pos hid] at h; exact absurd h (by simp)
    · rw [if_neg hid] at h
      rcases hff : findFirstTask db id uid with _ | t0
      · simp [hff] at h
      · simp only [hff] at h
        by_cases hT : (!putTitleOk body.title) = true
        · rw [if_pos hT] at h; exact absurd h (by simp)
        rw [if_neg hT] at h
        by_cases hD : (!putDescOk body.description) = true
        · rw [if_pos hD] at h; exact absurd h (by simp)
        rw [if_neg hD] at h
        by_cases hP : (!putPriorityOk body.priority) = true
        · rw [if_pos hP] at h; exact absurd h (by simp)
        rw [if_neg hP] at h
        by_cases hS : (!putStatusOk body.status) = true
        · rw [if_pos hS] at h; exact absurd h (by simp)
        rw [if_neg hS] at h
        by_cases hDD : (!putDueDateOk tz body.dueDate) = true
        · rw [if_pos hDD] at h; exact absurd h (by simp)
        rw [if_neg hDD] at h
        simp only [Bool.not_eq_true', Bool.not_eq_false] at hT hD hP hS hDD
        simp only [Prod.mk.injEq, Except.ok.injEq] at h
        obtain ⟨ht', -⟩ := h
        subst ht'
        have hff' : db.find? (fun t => t.id == id && t.userId == uid) = some t0 := hff
        have hmem : t0 ∈ db := List.mem_of_find?_eq_some hff'
        have hpred := List.find?_some hff'
        simp only [Bool.and_eq_true, beq_iff_eq] at hpred
        refine ⟨t0, hmem, hpred.1, hpred.2, ?_, ?_, ?_, ?_, ?_, ?_, ?_, ?_, ?_, ?_, ?_, ?_, ?_, ?_⟩
        · simp [applyUpdate, putUpdateData]
        · simp [applyUpdate, putUpdateData]
        · simp [applyUpdate, putUpdateData]
        · intro he; simp [applyUpdate, putUpdateData, he]
        · intro s he
          rw [he] at hT
          simp only [putTitleOk, Bool.not_eq_true', beq_eq_false_iff_ne, ne_eq] at hT
          exact ⟨hT, by simp [applyUpdate, putUpdateData, he]⟩
        · intro he; simp [applyUpdate, putUpdateData, he]
        · intro s he
          simp only [applyUpdate, putUpdateData, he]
          split <;> simp_all
        · intro he; simp [applyUpdate, putUpdateData, he]
        · intro he; simp [applyUpdate, putUpdateData, he]
        · intro s he
          rw [he] at hP
          simp only [putPriorityOk, isValidPriorityJs, Bool.or_eq_true, beq_iff_eq,
            Bool.and_eq_true, Bool.not_eq_true', beq_eq_false_iff_ne] at hP
          rcases hP with hP | hP
          · exact absurd hP (by simp)
          · exact ⟨hP.2, by simp [applyUpdate, putUpdateData, he, priorityOfJs]⟩
        · intro he; simp [applyUpdate, putUpdateData, he]
        · intro s he
          rw [he] at hS
          simp only [putStatusOk, isValidStatusJs, Bool.or_eq_true, beq_iff_eq,
            Bool.and_eq_true, Bool.not_eq_true', beq_eq_false_iff_ne] at hS
          rcases hS with hS | hS
          · exact absurd hS (by simp)
          · exact ⟨hS.2, by simp [applyUpdate, putUpdateData, he, statusOfJs]⟩
        · intro he; simp [applyUpdate, putUpdateData, he]
        · intro s he
          rw [he] at hDD
          simp only [putDueDateOk, Option.isSome_iff_exists] at hDD
          obtain ⟨ms, hms⟩ := hDD
          refine ⟨ms, hms, ?_⟩
          have hs : s ≠ "" := by
            intro hc
            subst hc
            rw [show jsDateParse tz (JsValue.str "") = none from rfl] at hms
            exact Option.noConfusion hms
          simp [applyUpdate, putUpdateData, he, JsValue.truthy, hs, hms]

/-- C3 witness: updating only the status of a concrete task (with a
spoofed `userId` field in the payload) leaves owner, title, description,
dueDate and creation time unchanged and applies the new status. -/
theorem putTask_field_frame_witness :
    ∃ t0, t0 ∈ [sampleTask] ∧ t0.id = "a" ∧ t0.userId = "u" ∧
      ({sampleTask with status := Status.DONE} : Task).id = t0.id ∧
      ({sampleTask with status := Status.DONE} : Task).userId = t0.userId ∧
      ({sampleTask with status := Status.DONE} : Task).createdAt = t0.createdAt := by
  obtain ⟨t0, hmem, hid, huid, hid', huid', hca, -⟩ :=
    putTask_field_frame [sampleTask] "u" "a" 0
      {status := .str "DONE", userId := .str "someone-else"}
      {sampleTask with status := Status.DONE}
      [{sampleTask with status := Status.DONE}] (by decide)
  exact ⟨t0, hmem, hid, huid, hid', huid', hca⟩

/-- C4 counterexample: the claim admits the sentinel `"all"`, but the
handler compares against `"ALL"` case-sensitively, so `status=all` is
rejected with the 400 invalid-status response instead of being accepted
as an unfiltered query. -/
theorem listTasks_rejects_lowercase_all :
    listTasks [sampleTask] (some "u") (some "all") none = .error errInvalidStatusParam ∧
    errInvalidStatusParam.status = 400 := by
  constructor
  · decide
  · rfl

/-- C4 (amended): the List status parameter must be the case-sensitive
sentinel `"ALL"` (unfiltered) or one of `TODO`/`IN_PROGRESS`/`DONE`
(exactly the owner's tasks with that status); an empty value is treated
as absent; any other nonempty value is a 400 validation error. -/
theorem listTasks_status_param_amended (db : List Task) (uid : String) (huid : uid ≠ "") :
    (∃ l, listTasks db (some uid) (some "ALL") none = .ok l ∧
       ∀ t, t ∈ l ↔ t ∈ db ∧ t.userId = uid) ∧
    (∀ s, s ∈ statusValues →
       ∃ l, listTasks db (some uid) (some s) none = .ok l ∧
         ∀ t, t ∈ l ↔ t ∈ db ∧ t.userId = uid ∧ statusToString t.status = s) ∧
    (∀ s search, s ≠ "" → s ≠ "ALL" → s ∉ statusValues →
       listTasks db (some uid) (some s) search = .error errInvalidStatusParam) ∧
    errInvalidStatusParam.status = 400 ∧
    listTasks db (some uid) (some "") none = listTasks db (some uid) none none := by
  refine ⟨?_, ?_, ?_, rfl, rfl⟩
  · refine ⟨(db.filter (listWhere uid none none)).insertionSort
      (fun a b => b.createdAt ≤ a.createdAt), ?_, ?_⟩
    · simp [listTasks, huid]
    · intro t
      rw [List.mem_insertionSort, List.mem_filter]
      simp [listWhere]
  · intro s hs
    have hs' : s = "TODO" ∨ s = "IN_PROGRESS" ∨ s = "DONE" := by
      simpa [statusValues] using hs
    rcases hs' with rfl | rfl | rfl
    · refine ⟨(db.filter (listWhere uid (some Status.TODO) none)).insertionSort
        (fun a b => b.createdAt ≤ a.createdAt), ?_, ?_⟩
      · simp [listTasks, huid, isValidStatusStr, statusValues, statusOfString]
      · intro t
        rw [List.mem_insertionSort, List.mem_filter]
        cases ht : t.status <;> simp [listWhere, statusToString, ht]
    · refine ⟨(db.filter (listWhere uid (some Status.IN_PROGRESS) none)).insertionSort
        (fun a b => b.createdAt ≤ a.createdAt), ?_, ?_⟩
      · simp [listTasks, huid, isValidStatusStr, statusValues, statusOfString]
      · intro t
        rw [List.mem_insertionSort, List.mem_filter]
        cases ht : t.status <;> simp [listWhere, statusToString, ht]
    · refine ⟨(db.filter (listWhere uid (some Status.DONE) none)).insertionSort
        (fun a b => b.createdAt ≤ a.createdAt), ?_, ?_⟩
      · simp [listTasks, huid, isValidStatusStr, statusValues, statusOfString]
      · intro t
        rw [List.mem_insertionSort, List.mem_filter]
        cases ht : t.status <;> simp [listWhere, statusToString, ht]
  · intro s search hne hall hns
    simp [listTasks, huid, isValidStatusStr, hne, hall, hns]

/-- C4 witness: a concrete unrecognized nonempty status value is a 400,
and the `"ALL"` sentinel lists the owner's tasks. -/
theorem listTasks_status_param_amended_witness :
    listTasks [sampleTask] (some "u") (some "BOGUS") none = .error errInvalidStatusParam ∧
    ∃ l, listTasks [sampleTask] (some "u") (some "ALL") none = .ok l ∧
      ∀ t, t ∈ l ↔ t ∈ [sampleTask] ∧ t.userId = "u" := by
  have h := listTasks_status_param_amended [sampleTask] "u" (by decide)
  exact ⟨h.2.2.1 "BOGUS" none (by decide) (by decide) (by decide), h.1⟩

/-- C6 counterexample: a Create whose priority is present but `null` and
whose status is present but `""` — both invalid enum members — is not
rejected: the truthiness guards skip them and the task is created with the
defaults. -/
theorem createTask_falsy_enum_slips_through :
    createTask [] (some "u") 0
      {title := .str "Buy milk", priority := .null, status := .str ""} "t1" 5 =
      (.ok ⟨"t1", "u", "Buy milk", none, .TODO, .LOW, none, 5⟩,
       [⟨"t1", "u", "Buy milk", none, .TODO, .LOW, none, 5⟩]) := by decide

/-- C6 (amended): a Create whose priority or status is present and
*truthy* but not a valid enum member fails with a 400 error and creates no
task; when the earlier field checks pass, the 400 detail enumerates the
allowed values.  (Falsy present values — `null`, `""`, `0`, `false` — are
treated as absent and replaced by the defaults.) -/
theorem createTask_enum_validation_amended :
    ∀ (db : List Task) (uid newId : String) (tz now : Int) (body : Body), uid ≠ "" →
      ((body.priority.truthy = true ∧ isValidPriorityJs body.priority = false) ∨
          (body.status.truthy = true ∧ isValidStatusJs body.status = false) →
        ∃ e, createTask db (some uid) tz body newId now = (.error e, db) ∧
          e.status = 400) ∧
      (postTitleOk body.title = true → postDescOk body.description = true →
        body.priority.truthy = true → isValidPriorityJs body.priority = false →
        createTask db (some uid) tz body newId now = (.error errPriorityEnum, db)) ∧
      errPriorityEnum.details = some "Priority must be one of: LOW, MEDIUM, HIGH" ∧
      (postTitleOk body.title = true → postDescOk body.description = true →
        postPriorityOk body.priority = true →
        body.status.truthy = true → isValidStatusJs body.status = false →
        createTask db (some uid) tz body newId now = (.error errStatusEnum, db)) ∧
      errStatusEnum.details = some "Status must be one of: TODO, IN_PROGRESS, DONE" := by
  intro db uid newId tz now body huid
  refine ⟨?_, ?_, rfl, ?_, rfl⟩
  · intro hbad
    simp only [createTask]
    rw [if_neg huid]
    by_cases h1 : (!postTitleOk body.title) = true
    · rw [if_pos h1]; exact ⟨errTitlePost, rfl, rfl⟩
    rw [if_neg h1]
    by_cases h2 : (!postDescOk body.description) = true
    · rw [if_pos h2]; exact ⟨errDesc, rfl, rfl⟩
    rw [if_neg h2]
    by_cases h3 : (!postPriorityOk body.priority) = true
    · rw [if_pos h3]; exact ⟨errPriorityEnum, rfl, rfl⟩
    rw [if_neg h3]
    by_cases h4 : (!postStatusOk body.status) = true
    · rw [if_pos h4]; exact ⟨errStatusEnum, rfl, rfl⟩
    exfalso
    simp only [Bool.not_eq_true', Bool.not_eq_false] at h3 h4
    rcases hbad with ⟨htr, hval⟩ | ⟨htr, hval⟩
    · simp [postPriorityOk, htr, hval] at h3
    · simp [postStatusOk, htr, hval] at h4
  · intro hT hD htr hval
    have h3 : (!postPriorityOk body.priority) = true := by
      simp [postPriorityOk, htr, hval]
    simp only [createTask]
    rw [if_neg huid, if_neg (by simp [hT]), if_neg (by simp [hD]), if_pos h3]
  · intro hT hD hP htr hval
    have h4 : (!postStatusOk body.status) = true := by
      simp [postStatusOk, htr, hval]
    simp only [createTask]
    rw [if_neg huid, if_neg (by simp [hT]), if_neg (by simp [hD]),
      if_neg (by simp [hP]), if_pos h4]

/-- C6 witness: a truthy invalid priority string is rejected with the
enumerating 400 detail at a concrete input. -/
theorem createTask_enum_validation_amended_witness :
    createTask [] (some "u") 0 {title := .str "Buy milk", priority := .str "URGENT"}
      "t1" 5 = (.error errPriorityEnum, []) := by
  exact (createTask_enum_validation_amended [] "u" "t1" 0 5
    {title := .str "Buy milk", priority := .str "URGENT"} (by decide)).2.1
    (by decide) (by decide) (by decide) (by decide)

/-- C7: membership in the client view pipeline's output: a task is kept
iff it passes the status filter (`"ALL"` or equal status) and, when the
debounced search text is non-empty, the lowercased search text is a
substring of the lowercased title or of the lowercased description (an
absent description contributes no match); empty search removes nothing. -/
theorem clientPipeline_search_filter :
    ∀ (tasks : List Task) (fs q sb : String) (t : Task),
      t ∈ filteredAndSortedTasks tasks fs q sb ↔
        t ∈ tasks ∧
        (fs = "ALL" ∨ statusToString t.status = fs) ∧
        (q = "" ∨ (jsToLower q).data <:+: (jsToLower t.title).data ∨
          ∃ d, t.description = some d ∧ (jsToLower q).data <:+: (jsToLower d).data) := by
  intro tasks fs q sb t
  unfold filteredAndSortedTasks
  rw [List.mem_insertionSort, List.mem_filter]
  refine and_congr_right fun _ => ?_
  by_cases hst : (fs != "ALL" && statusToString t.status != fs) = true
  · rw [taskKeep, if_pos hst]
    simp only [Bool.and_eq_true, bne_iff_ne, ne_eq] at hst
    simp [hst.1, hst.2]
  · have hStOk : fs = "ALL" ∨ statusToString t.status = fs := by
      by_cases hfs : fs = "ALL"
      · exact Or.inl hfs
      · right
        by_contra hc
        exact hst (by simp [hfs, hc])
    rw [taskKeep, if_neg hst]
    by_cases hq : (q != "") = true
    · have hq' : q ≠ "" := by simpa using hq
      rw [if_pos hq]
      cases hd : t.description with
      | none => simp [jsIncludes, hq', hd, hStOk]
      | some d => simp [jsIncludes, hq', hd, hStOk]
    · have hq' : q = "" := by simpa using hq
      rw [if_neg hq]
      simp [hq', hStOk]

/-- C8: the client sort orders by descending/ascending priority ordinal
(`HIGH:3, MEDIUM:2, LOW:1`, so every HIGH precedes every MEDIUM precedes
every LOW under `priority-desc`, and `priority-asc` is the reverse
ordering) or by descending/ascending creation time; an unrecognized sort
key leaves the filtered list in its original order; and ties under the
comparator keep the original relative order (stability). -/
theorem clientSort_spec :
    ∀ (tasks : List Task) (fs q : String),
      (filteredAndSortedTasks tasks fs q "priority-desc").Pairwise
        (fun a b => priorityOrder b.priority ≤ priorityOrder a.priority) ∧
      (filteredAndSortedTasks tasks fs q "priority-asc").Pairwise
        (fun a b => priorityOrder a.priority ≤ priorityOrder b.priority) ∧
      (filteredAndSortedTasks tasks fs q "date-desc").Pairwise
        (fun a b => b.createdAt ≤ a.createdAt) ∧
      (filteredAndSortedTasks tasks fs q "date-asc").Pairwise
        (fun a b => a.createdAt ≤ b.createdAt) ∧
      (∀ sb, sb ≠ "date-desc" → sb ≠ "date-asc" → sb ≠ "priority-desc" →
        sb ≠ "priority-asc" →
        filteredAndSortedTasks tasks fs q sb = tasks.filter (taskKeep fs q)) ∧
      (∀ sb a b, sortCmp sb a b = 0 →
        List.Sublist [a, b] (tasks.filter (taskKeep fs q)) →
        List.Sublist [a, b] (filteredAndSortedTasks tasks fs q sb)) := by
  intro tasks fs q
  refine ⟨?_, ?_, ?_, ?_, ?_, ?_⟩
  · haveI : IsTotal Task (fun a b => sortCmp "priority-desc" a b ≤ 0) :=
      ⟨fun a b => by simp only [sortCmp]; omega⟩
    haveI : IsTrans Task (fun a b => sortCmp "priority-desc" a b ≤ 0) :=
      ⟨fun a b c h1 h2 => by simp only [sortCmp] at *; omega⟩
    exact (List.sorted_insertionSort _ _).imp
      (fun hab => by simp only [sortCmp] at hab; omega)
  · haveI : IsTotal Task (fun a b => sortCmp "priority-asc" a b ≤ 0) :=
      ⟨fun a b => by simp only [sortCmp]; omega⟩
    haveI : IsTrans Task (fun a b => sortCmp "priority-asc" a b ≤ 0) :=
      ⟨fun a b c h1 h2 => by simp only [sortCmp] at *; omega⟩
    exact (List.sorted_insertionSort _ _).imp
      (fun hab => by simp only [sortCmp] at hab; omega)
  · haveI : IsTotal Task (fun a b => sortCmp "date-desc" a b ≤ 0) :=
      ⟨fun a b => by simp only [sortCmp]; omega⟩
    haveI : IsTrans Task (fun a b => sortCmp "date-desc" a b ≤ 0) :=
      ⟨fun a b c h1 h2 => by simp only [sortCmp] at *; omega⟩
    exact (List.sorted_insertionSort _ _).imp
      (fun hab => by simp only [sortCmp] at hab; omega)
  · haveI : IsTotal Task (fun a b => sortCmp "date-asc" a b ≤ 0) :=
      ⟨fun a b => by simp only [sortCmp]; omega⟩
    haveI : IsTrans Task (fun a b => sortCmp "date-asc" a b ≤ 0) :=
      ⟨fun a b c h1 h2 => by simp only [sortCmp] at *; omega⟩
    exact (List.sorted_insertionSort _ _).imp
      (fun hab => by simp only [sortCmp] at hab; omega)
  · intro sb h1 h2 h3 h4
    unfold filteredAndSortedTasks
    apply List.Sorted.insertionSort_eq
    apply List.pairwise_of_forall
    intro a b
    unfold sortCmp
    split
    · exact absurd rfl h1
    · exact absurd rfl h2
    · exact absurd rfl h3
    · exact absurd rfl h4
    · omega
  · intro sb a b hcmp hsub
    unfold filteredAndSortedTasks
    exact List.pair_sublist_insertionSort (le_of_eq hcmp) hsub

/-- C8 witness: on a concrete two-task list, `priority-desc` yields the
descending-ordinal order and the unrecognized key `"bogus"` is a no-op. -/
theorem clientSort_spec_witness :
    (filteredAndSortedTasks [sampleTask, sampleTask2] "ALL" "" "priority-desc").Pairwise
      (fun a b => priorityOrder b.priority ≤ priorityOrder a.priority) ∧
    filteredAndSortedTasks [sampleTask, sampleTask2] "ALL" "" "bogus" =
      List.filter (taskKeep "ALL" "") [sampleTask, sampleTask2] := by
  have h := clientSort_spec [sampleTask, sampleTask2] "ALL" ""
  exact ⟨h.1, h.2.2.2.2.1 "bogus" (by decide) (by decide) (by decide) (by decide)⟩

/-- C9: a task created with `dueDate="2025-12-31"` reads back (Get by id)
as the very record just created, and its stored due date denotes the UTC
civil date 2025-12-31 — for every host timezone offset `tz`. -/
theorem dueDate_roundTrip :
    ∀ (db : List Task) (uid newId : String) (tz now : Int),
      uid ≠ "" → newId ≠ "" → (∀ t ∈ db, t.id ≠ newId) →
      ∃ task,
        createTask db (some uid) tz
          {title := .str "Trip", dueDate := .str "2025-12-31"} newId now =
          (.ok task, db ++ [task]) ∧
        getTask (db ++ [task]) (some uid) newId = .ok task ∧
        ∃ ms, task.dueDate = some ms ∧
          civilOfDays (ms.toNat / msPerDay) = (2025, 12, 31) := by
  intro db uid newId tz now huid hnid hfresh
  have hparse : jsDateParse tz (JsValue.str "2025-12-31") = some 1767139200000 := rfl
  refine ⟨⟨newId, uid, "Trip", none, .TODO, .LOW, some 1767139200000, now⟩,
    ?_, ?_, 1767139200000, rfl, by decide⟩
  · have h1 : postTitleOk (.str "Trip") = true := by decide
    have h2 : jsTrim "Trip" = "Trip" := by decide
    have h3 : postDueDateOk tz (.str "2025-12-31") = true := by
      simp [postDueDateOk, hparse]
    simp [createTask, huid, h1, h2, h3, postDescOk, postPriorityOk, postStatusOk,
      JsValue.truthy, postDescription, hparse]
  · have hfind : findFirstTask
        (db ++ [⟨newId, uid, "Trip", none, .TODO, .LOW, some 1767139200000, now⟩])
        newId uid =
        some ⟨newId, uid, "Trip", none, .TODO, .LOW, some 1767139200000, now⟩ := by
      unfold findFirstTask
      rw [List.find?_append]
      have h0 : db.find? (fun t => t.id == newId && t.userId == uid) = none := by
        rw [List.find?_eq_none]
        intro t ht
        simp [hfresh t ht]
      rw [h0]
      simp
    simp [getTask, huid, hnid, hfind]

/-- C9 witness: the round trip at a concrete nonzero timezone offset. -/
theorem dueDate_roundTrip_witness :
    ∃ task,
      createTask [] (some "u") 300
        {title := .str "Trip", dueDate := .str "2025-12-31"} "t1" 7 =
        (.ok task, [] ++ [task]) ∧
      getTask ([] ++ [task]) (some "u") "t1" = .ok task ∧
      ∃ ms, task.dueDate = some ms ∧
        civilOfDays (ms.toNat / msPerDay) = (2025, 12, 31) :=
  dueDate_roundTrip [] "u" "t1" 300 7 (by decide) (by decide) (by decide)

end App
